import Mathlib

/-!
Verification development for the teneNCE dynamic-graph model (src/model.py).

The development has two layers, both translated from src/model.py:

* a shape layer: every tensor operation of the model is mirrored by a
  function on shapes (pairs of row and column counts) returning an
  Option, where none models the runtime error torch raises when the
  operation is applied to incompatible shapes.  This layer settles the
  claims about definedness and output shapes.

* a value layer over the reals: the loss computations of compute_losses,
  GAE.recon_loss (semantics of the torch_geometric dependency called at
  model.py line 209), the time encoder, and the global infoNCE helper
  are embedded as real-valued functions.  Mean of an empty list is
  modelled as the Option value none, mirroring that torch.mean of an
  empty tensor is NaN.

Naming notes.  The methods forward, encode_sequence, decode_next and
compute_losses of class TENENCE refer to attributes dec, pred, k_enc,
cpc_local, cpc_global and encode that no line of src defines; the
constructor defines decoder, link_predictor, timestep_enc,
predictive_encoder_local, predictive_encoder_global and
encode_sequence, and the specification (sections 4.5, 4.6 and 9)
identifies the former as aliases of the latter.  Definitions below that
depend on this resolution carry a comment starting with
Modelled from the spec.
-/

/-- Edge list validity: torch GCNConv (and index_fill) raise when an
edge endpoint is not smaller than the number of node rows.  Source:
edge_index entries index rows of x in model.py lines 55, 99. -/
def edgesValidB (E : List (ℕ × ℕ)) (n : ℕ) : Bool :=
  E.all (fun e => decide (e.1 < n) && decide (e.2 < n))

/-- Shape semantics of torch_geometric GCNConv(in_channels, out_channels):
defined on an (N, c) input when c equals in_channels and all edge
endpoints are valid row indices; output has shape (N, out_channels). -/
def gcnConvS (inC outC : ℕ) (x : ℕ × ℕ) (E : List (ℕ × ℕ)) : Option (ℕ × ℕ) :=
  if x.2 = inC ∧ edgesValidB E x.1 = true then some (x.1, outC) else none

/-- Shape semantics of nn.BatchNorm1d(num_features) in training mode
(the nn.Module default, in force when forward computes the training
objective): defined on an (N, c) input when c equals num_features and
N is not 1, since training-mode batch statistics need more than one
value per channel; shape preserved. -/
def batchNorm1dS (features : ℕ) (x : ℕ × ℕ) : Option (ℕ × ℕ) :=
  if x.2 = features ∧ x.1 ≠ 1 then some x else none

/-- Shape semantics of nn.Linear(in_features, out_features). -/
def linearS (inF outF : ℕ) (x : ℕ × ℕ) : Option (ℕ × ℕ) :=
  if x.2 = inF then some (x.1, outF) else none

/-- Elementwise addition of two tensors: shapes must agree. -/
def addS (a b : ℕ × ℕ) : Option (ℕ × ℕ) :=
  if a = b then some a else none

/-- Elementwise (Hadamard) product of two tensors: shapes must agree. -/
def mulS (a b : ℕ × ℕ) : Option (ℕ × ℕ) :=
  if a = b then some a else none

/-- Number of array dimensions of the output of TimeEncoder.forward on
a 1-D input of length n with encoder dimension D, model.py lines 32 to
35: the input is reshaped to (n, 1) and mapped through the linear layer
to (n, D), and the final .squeeze() removes every axis of size 1, so
the result is 2-D exactly when n and D both differ from 1. -/
def TimeEncoder.squeezedDims (n D : ℕ) : ℕ :=
  (if n = 1 then 0 else 1) + (if D = 1 then 0 else 1)

/-- Shape semantics of torch.cat([z_enc_k, last_seen_enc_k], dim=1) at
model.py line 169: z_enc_k is 2-D and torch.cat demands operands with
equal numbers of dimensions, so the squeezed time encoding of
last_seen (length N0, encoder dimension D) must itself still be 2-D,
that is N0 and D must both differ from 1; then row counts must agree
and the column counts add. -/
def catTimeEncS (N0 D : ℕ) (zenc : ℕ × ℕ) : Option (ℕ × ℕ) :=
  if TimeEncoder.squeezedDims N0 D = 2 ∧ zenc.1 = N0
  then some (zenc.1, zenc.2 + D) else none

/-- Shape semantics of MPNN.forward, model.py lines 54 to 70.  ReLU,
dropout and the optional L2 row normalization preserve shapes and so do
not appear.  Line 52 of the source constructs bn3 as
BatchNorm1d(num_features=hidden_dim), so the third batch norm checks
its input against hiddenDim even though mp3 outputs outputDim columns;
this is translated as written. -/
def MPNN.forwardS (inputDim hiddenDim outputDim : ℕ) (x : ℕ × ℕ)
    (E : List (ℕ × ℕ)) (_norm : Bool) : Option (ℕ × ℕ) :=
  (gcnConvS inputDim hiddenDim x E).bind fun z1 =>        -- mp1, line 55
  (batchNorm1dS hiddenDim z1).bind fun z1b =>             -- bn1, line 56
  (gcnConvS hiddenDim hiddenDim z1b E).bind fun z2 =>     -- mp2, line 60
  (batchNorm1dS hiddenDim z2).bind fun z2b =>             -- bn2, line 61
  (gcnConvS hiddenDim outputDim z2b E).bind fun z3 =>     -- mp3, line 65
  (batchNorm1dS hiddenDim z3).map fun z3b => z3b          -- bn3, line 66

/-- Shape semantics of GGRU.forward, model.py lines 91 to 105.  The six
graph convolutions are constructed in lines 82 to 89 with in_channels
struct_embed_dim for the Wi convs and state_dim for the Ws convs, all
with out_channels state_dim.  Sigmoid and tanh preserve shapes; the
final line combines gates elementwise. -/
def GGRU.forwardS (structDim stateDim : ℕ) (z : ℕ × ℕ) (E : List (ℕ × ℕ))
    (s : ℕ × ℕ) : Option (ℕ × ℕ) :=
  (gcnConvS structDim stateDim z E).bind fun r1 =>        -- Wi_reset(z, E)
  (gcnConvS stateDim stateDim s E).bind fun r2 =>         -- Ws_reset(s, E)
  (addS r1 r2).bind fun r =>                              -- reset gate
  (gcnConvS structDim stateDim z E).bind fun u1 =>        -- Wi_update(z, E)
  (gcnConvS stateDim stateDim s E).bind fun u2 =>         -- Ws_update(s, E)
  (addS u1 u2).bind fun u =>                              -- update gate
  (gcnConvS structDim stateDim z E).bind fun c1 =>        -- Wi_cand(z, E)
  (gcnConvS stateDim stateDim s E).bind fun c2 =>         -- Ws_cand(s, E)
  (mulS r c2).bind fun rc =>                              -- reset * Ws_cand
  (addS c1 rc).bind fun c =>                              -- candidate
  (mulS u c).bind fun uc =>                               -- (1-update)*cand
  (mulS u s).bind fun us =>                               -- update*s
  addS uc us

/-- Configuration of TENENCE(input_dim, hidden_dim, output_dim),
model.py lines 109 to 127. -/
structure Cfg where
  input : ℕ
  hidden : ℕ
  output : ℕ
deriving DecidableEq

/-- A snapshot as seen by the shape layer: row and column counts of the
dense feature matrix x, and the edge list. -/
structure SnapS where
  n : ℕ
  f : ℕ
  E : List (ℕ × ℕ)
deriving DecidableEq

/-- Shape semantics of torch.Tensor.index_fill on a vector of length n:
all indices must be valid.  Source: model.py line 165, where the source
endpoints of the snapshot edges index last_seen (length num_nodes). -/
def indexFillS (n : ℕ) (E : List (ℕ × ℕ)) : Option Unit :=
  if E.all (fun e => decide (e.1 < n)) then some () else none

/-- Shape semantics of one iteration of the encode_sequence loop,
model.py lines 153 to 179, for a model with configuration cfg, with N0
the node count of the first snapshot (line 145), st the shape of the
incoming recurrent state, and s the current snapshot.
Modelled from the spec: the calls self.dec and self.pred in lines 174
and 178 resolve to the Linear(output_dim, output_dim) modules decoder
and link_predictor of lines 120 and 121, per spec sections 4.5 and 9.
The time encoding of last_seen (line 166) goes through the .squeeze()
of TimeEncoder.forward, so the concatenation of line 169 is only
defined when N0 and output_dim both differ from 1 (catTimeEncS). -/
def TENENCE.stepS (cfg : Cfg) (N0 : ℕ) (st : ℕ × ℕ) (s : SnapS)
    (norm : Bool) : Option (ℕ × ℕ) :=
  (MPNN.forwardS cfg.input cfg.hidden cfg.output (s.n, s.f) s.E norm).bind fun zenc =>
  (indexFillS N0 s.E).bind fun _ =>                       -- line 165
  (catTimeEncS N0 cfg.output zenc).bind fun zcat =>       -- lines 166, 169
  (GGRU.forwardS (2 * cfg.output) cfg.output zcat s.E st).bind fun st1 =>  -- line 170
  (linearS cfg.output cfg.output st1).bind fun _ =>       -- line 174, dec
  (linearS cfg.output cfg.output st1).map fun _ => st1    -- line 178, pred

/-- Folding TENENCE.stepS over the remaining snapshots, threading the
state shape, as the loop of model.py lines 153 to 179 does. -/
def TENENCE.encSeqGo (cfg : Cfg) (N0 : ℕ) (norm : Bool) :
    (ℕ × ℕ) → List SnapS → Option (ℕ × ℕ)
  | st, [] => some st
  | st, s :: rest =>
    (TENENCE.stepS cfg N0 st s norm).bind fun st1 =>
      TENENCE.encSeqGo cfg N0 norm st1 rest

/-- Shape semantics of TENENCE.encode_sequence, model.py lines 140 to
184.  The node count is read from the first snapshot (line 145, raising
on an empty sequence) and the initial state is zeros(num_nodes,
output_dim) (line 150).  Returns the shape of the final state, which is
also the shape of every per step z_dec and z_pred. -/
def TENENCE.encodeSequenceS (cfg : Cfg) (seq : List SnapS) (norm : Bool) :
    Option (ℕ × ℕ) :=
  match seq with
  | [] => none
  | s0 :: rest => TENENCE.encSeqGo cfg s0.n norm (s0.n, cfg.output) (s0 :: rest)

/-- Shape semantics of TENENCE.forward, model.py lines 129 to 138: runs
encode_sequence and then compute_losses.  Given the stacked encoder
outputs, the tensor operations of compute_losses introduce no further
shape constraints (the einsum, diagonal, masking and concatenation
operations of lines 196 to 269 are consistent for any T, N, D), so the
definedness of forward is that of the encoder pass. -/
def TENENCE.forwardS (cfg : Cfg) (seq : List SnapS) (norm : Bool) : Option Unit :=
  (TENENCE.encodeSequenceS cfg seq norm).map fun _ => ()

/-- Shape semantics of TENENCE.decode_next, model.py lines 186 to 194:
the final z_pred has the shape of the final state (N0, output_dim), and
the InnerProductDecoder forward_all returns an (N0, N0) matrix.
Modelled from the spec: line 191 calls self.encode, which src never
defines; per spec sections 4.5 and 9 it resolves to encode_sequence. -/
def TENENCE.decodeNextS (cfg : Cfg) (seq : List SnapS) (norm : Bool) :
    Option (ℕ × ℕ) :=
  (TENENCE.encodeSequenceS cfg seq norm).map fun sh => (sh.1, sh.1)

/-- Node count of the first snapshot of a sequence, the num_nodes of
model.py line 145 (0 for the empty sequence). -/
def headN (seq : List SnapS) : ℕ := (seq.headD ⟨0, 0, []⟩).n

/-- Well formedness of a snapshot sequence for a configuration: the
feature width matches input_dim, the node count is constant, and edges
index valid nodes.  This is the input contract of spec section 6. -/
def WFSeq (cfg : Cfg) (seq : List SnapS) : Prop :=
  ∀ s ∈ seq, s.f = cfg.input ∧ s.n = headN seq ∧ edgesValidB s.E (headN seq) = true

instance (cfg : Cfg) (seq : List SnapS) : Decidable (WFSeq cfg seq) := by
  unfold WFSeq; infer_instance

/-- Source endpoints of an edge list: edge_index[0, :] of model.py
line 164 (unique only removes duplicates and cannot change which nodes
receive the index_fill update). -/
def srcNodes (E : List (ℕ × ℕ)) : List ℕ := E.map Prod.fst

/-- Value of the last_seen vector at node v after the first k loop
iterations of encode_sequence, model.py lines 151 and 164 to 165:
initialized to zero, and set to j+1 at iteration j for every node that
is a source endpoint of an edge of snapshot j. -/
def lastSeenAt (E : ℕ → List (ℕ × ℕ)) : ℕ → ℕ → ℕ
  | 0, _ => 0
  | k + 1, v => if v ∈ srcNodes (E k) then k + 1 else lastSeenAt E k v

/-- Logistic sigmoid, the torch.sigmoid applied throughout model.py. -/
noncomputable def sigmoidR (x : ℝ) : ℝ := 1 / (1 + Real.exp (-x))

/-- Numerical epsilon EPS = 1e-15 of torch_geometric GAE.recon_loss. -/
noncomputable def gaeEPS : ℝ := 1 / 10 ^ 15

/-- Dot product of the first D coordinates of two vectors. -/
noncomputable def dotD (D : ℕ) (a b : ℕ → ℝ) : ℝ :=
  ∑ d ∈ Finset.range D, a d * b d

/-- Mean of a list of reals; none models the NaN that torch.mean
returns on an empty tensor (a sum of zero elements divided by zero). -/
noncomputable def omean : List ℝ → Option ℝ
  | [] => none
  | a :: l => some ((a :: l).sum / (a :: l).length)

/-- Addition on Option-valued reals: none (NaN) propagates, as NaN does
through torch addition. -/
noncomputable def nadd : Option ℝ → Option ℝ → Option ℝ
  | some a, some b => some (a + b)
  | _, _ => none

/-- Decoder score of torch_geometric InnerProductDecoder with
sigmoid=True on a node pair: sigmoid of the dot product of the two
node embeddings.  Called from GAE.recon_loss for model.py line 209. -/
noncomputable def GAE.pairProb (D : ℕ) (z : ℕ → ℕ → ℝ) (e : ℕ × ℕ) : ℝ :=
  sigmoidR (dotD D (z e.1) (z e.2))

/-- Value semantics of torch_geometric GAE.recon_loss(z, pos_edge_index)
as called at model.py lines 209 and 216: the mean of -log(score + EPS)
over the positive edges plus the mean of -log(1 - score + EPS) over the
sampled negative edges.  The random output of negative_sampling is
passed in as negE; when the positive edge list is empty,
negative_sampling is asked for zero samples, so negE is empty as well.
A none result models the NaN produced by the empty means. -/
noncomputable def GAE.reconLossVal (D : ℕ) (z : ℕ → ℕ → ℝ)
    (posE negE : List (ℕ × ℕ)) : Option ℝ :=
  nadd
    (omean (posE.map (fun e => -(Real.log (GAE.pairProb D z e + gaeEPS)))))
    (omean (negE.map (fun e => -(Real.log (1 - GAE.pairProb D z e + gaeEPS)))))

/-- Full pairwise decoding of torch_geometric InnerProductDecoder
forward_all with sigmoid=True, used by decode_next at model.py
line 193: entry (i, j) is sigmoid of the dot product of rows i and j. -/
noncomputable def GAE.forwardAllVal (D : ℕ) (z : ℕ → ℕ → ℝ) (i j : ℕ) : ℝ :=
  sigmoidR (dotD D (z i) (z j))

/-- Frozen weight i of TimeEncoder with dimension D, model.py lines 23
to 26: 1 / 10 ** linspace(0, 9, D) entry i, that is 10 to the real
power -(9 i / (D - 1)); for D = 1, linspace(0, 9, 1) = [0] and the
weight is 1, which the formula yields through division by zero. -/
noncomputable def TimeEncoder.weightAt (D i : ℕ) : ℝ :=
  (10 : ℝ) ^ (-((9 * (i : ℝ)) / ((D : ℝ) - 1)))

/-- Frozen bias of TimeEncoder: zeros, model.py line 26. -/
def TimeEncoder.biasAt (_D _i : ℕ) : ℝ := 0

/-- Component i of TimeEncoder.forward on input t, model.py lines 32 to
35: cos of the affine map with the frozen weight and zero bias. -/
noncomputable def TimeEncoder.encodeAt (D : ℕ) (t : ℝ) (i : ℕ) : ℝ :=
  Real.cos (TimeEncoder.weightAt D i * t + TimeEncoder.biasAt D i)

/-- Row j of ks_enc at model.py lines 202 to 203: ks = arange(T)+1, so
row j is the time encoding of the scalar j+1.
Modelled from the spec: line 203 calls self.k_enc, which src never
defines; per spec sections 4.6 and 9 it resolves to the TimeEncoder
timestep_enc of line 119. -/
noncomputable def ksEncVal (D j : ℕ) : ℕ → ℝ :=
  fun d => TimeEncoder.encodeAt D ((j : ℝ) + 1) d

/-- Concatenation of two D-dimensional vectors along the feature axis,
torch.cat(dim=-1) of model.py lines 224 and 225. -/
def catVec (D : ℕ) (a b : ℕ → ℝ) : ℕ → ℝ :=
  fun i => if i < D then a i else b (i - D)

/-- Mean over the node axis, tensor.mean(0) or .mean(1) of model.py
lines 223, 227, 254, 315. -/
noncomputable def meanNode (N : ℕ) (Z : ℕ → ℕ → ℝ) : ℕ → ℝ :=
  fun d => (∑ n ∈ Finset.range N, Z n d) / (N : ℝ)

/-- Application of nn.Linear weights: out o = sum over i of W o i * v i
plus bias o. -/
noncomputable def linApply (W : ℕ → ℕ → ℝ) (b : ℕ → ℝ) (inDim : ℕ)
    (v : ℕ → ℝ) : ℕ → ℝ :=
  fun o => (∑ i ∈ Finset.range inDim, W o i * v i) + b o

/-- ReLU. -/
noncomputable def reluR (x : ℝ) : ℝ := max x 0

/-- Weights of predictive_encoder_local, model.py lines 122 to 126:
Linear(2D, 2D), ReLU, Linear(2D, D). -/
structure MLP2 where
  W1 : ℕ → ℕ → ℝ
  b1 : ℕ → ℝ
  W2 : ℕ → ℕ → ℝ
  b2 : ℕ → ℝ

/-- Weights of predictive_encoder_global, model.py line 127:
Linear(2D, D). -/
structure Lin1 where
  W : ℕ → ℕ → ℝ
  b : ℕ → ℝ

/-- Forward pass of predictive_encoder_local on a 2D-dimensional
vector. -/
noncomputable def mlp2Apply (p : MLP2) (D : ℕ) (v : ℕ → ℝ) : ℕ → ℝ :=
  linApply p.W2 p.b2 (2 * D)
    (fun i => reluR (linApply p.W1 p.b1 (2 * D) v i))

/-- Binary cross entropy with logits with mean reduction and
pos_weight = (number of negatives) / (number of positives), exactly the
F.binary_cross_entropy_with_logits calls of model.py lines 263 to 267,
306 to 310 and 326 to 330, where the inputs are the concatenation of
the positive scores (target 1) and the negative scores (target 0). -/
noncomputable def bceWithLogits (pos neg : List ℝ) : ℝ :=
  ((pos.map (fun x =>
      ((neg.length : ℝ) / (pos.length : ℝ)) * (-(Real.log (sigmoidR x))))).sum
   + (neg.map (fun x => -(Real.log (1 - sigmoidR x)))).sum)
  / ((pos.length : ℝ) + (neg.length : ℝ))

/-- Inputs of TENENCE.compute_losses, model.py line 196: the snapshot
edge lists drive the loop; states, Z_enc, Z_dec and Z_pred are the
stacked outputs of encode_sequence, indexed step, node, coordinate;
cpcL and cpcG are the forecast encoder weights; reconNegs and predNegs
are the negative edges drawn by the (random) negative_sampling inside
the two recon_loss calls at each step.
Modelled from the spec: cpc_local and cpc_global of model.py lines 224
and 225 resolve to predictive_encoder_local and
predictive_encoder_global per spec sections 4.6 and 9. -/
structure LEInput where
  N : ℕ
  D : ℕ
  edges : List (List (ℕ × ℕ))
  states : ℕ → ℕ → ℕ → ℝ
  Zenc : ℕ → ℕ → ℕ → ℝ
  Zdec : ℕ → ℕ → ℕ → ℝ
  Zpred : ℕ → ℕ → ℕ → ℝ
  cpcL : MLP2
  cpcG : Lin1
  reconNegs : ℕ → List (ℕ × ℕ)
  predNegs : ℕ → List (ℕ × ℕ)

/-- Local forecast z_cpc_local_future for anchor step k, target step kp
and node n, model.py line 224: predictive_encoder_local applied to the
concatenation of state_k[n] and ks_enc[kp]. -/
noncomputable def zCpcLocal (inp : LEInput) (k kp n : ℕ) : ℕ → ℝ :=
  mlp2Apply inp.cpcL inp.D (catVec inp.D (inp.states k n) (ksEncVal inp.D kp))

/-- Global forecast z_cpc_global_future for anchor step k and target
step kp, model.py line 225: predictive_encoder_global applied to the
concatenation of the node mean of state_k and ks_enc[kp]. -/
noncomputable def zCpcGlobal (inp : LEInput) (k kp : ℕ) : ℕ → ℝ :=
  linApply inp.cpcG.W inp.cpcG.b (2 * inp.D)
    (catVec inp.D (meanNode inp.N (inp.states k)) (ksEncVal inp.D kp))

/-- Sum over the future-step axis of the slice Z_enc[k+1:] at node m
and coordinate d: the einsum of model.py line 231 has subscripts
TND, LMD -> TNM, and L does not occur in the output, so the future-step
axis L of z_local_future is contracted along with D. -/
noncomputable def zEncFutureSum (inp : LEInput) (T k m : ℕ) : ℕ → ℝ :=
  fun d => (((List.range T).drop (k + 1)).map (fun l => inp.Zenc l m d)).sum

/-- Entry (kp, n, m) of scores_same_k, model.py line 231: the einsum
dots the local forecast for (k, kp, n) against the sum over all future
steps of the Z_enc rows of node m (both the D axis and the future-step
axis L are contracted, L being absent from the output subscripts). -/
noncomputable def scoresSameK (inp : LEInput) (T k kp n m : ℕ) : ℝ :=
  dotD inp.D (zCpcLocal inp k kp n) (zEncFutureSum inp T k m)

/-- Future steps of an anchor k in a sequence of length T: the steps
k+1 to T-1, the slice [k+1:] of model.py lines 221 to 227. -/
def futureSteps (T k : ℕ) : List ℕ := (List.range T).drop (k + 1)

/-- Off-diagonal index pairs of an N by N matrix in row major order,
the boolean mask ~eye(N) of model.py lines 240 to 242 and 319. -/
def offDiagPairs (N : ℕ) : List (ℕ × ℕ) :=
  ((List.range N).flatMap (fun n => (List.range N).map (fun m => (n, m)))).filter
    (fun nm => decide (nm.1 ≠ nm.2))

/-- Timesteps selected for the type (b) local negatives of the forecast
aimed at target step k+1+idx, model.py lines 245 to 248: the boolean
mask not_same_k_mask = ~eye(num_timesteps)[k+1:], whose row idx is true
at every timestep t different from k+1+idx, selects those rows of
Z_enc in increasing order of t. -/
def negBSteps (T k idx : ℕ) : List ℕ :=
  (List.range T).filter (fun t => decide (t ≠ k + 1 + idx))

/-- Positive local scores at anchor k, model.py line 232: the diagonal
(n = m) of scores_same_k, for every future step and node. -/
noncomputable def posLocalList (inp : LEInput) (T k : ℕ) : List ℝ :=
  (futureSteps T k).flatMap (fun kp =>
    (List.range inp.N).map (fun n => scoresSameK inp T k kp n n))

/-- Positive global scores at anchor k, model.py line 235: for each
future step kp, the dot product of the global forecast with the node
mean of Z_enc[kp]. -/
noncomputable def posGlobalList (inp : LEInput) (T k : ℕ) : List ℝ :=
  (futureSteps T k).map (fun kp =>
    dotD inp.D (zCpcGlobal inp k kp) (meanNode inp.N (inp.Zenc kp)))

/-- Type (a) local negatives at anchor k, model.py lines 240 to 242:
same future step, distinct node pair. -/
noncomputable def negLocalAList (inp : LEInput) (T k : ℕ) : List ℝ :=
  (futureSteps T k).flatMap (fun kp =>
    (offDiagPairs inp.N).map (fun nm => scoresSameK inp T k kp nm.1 nm.2))

/-- Type (b) local negatives at anchor k, model.py lines 244 to 250:
for each future target index idx, the einsum of the local forecasts
with Z_enc restricted to the timesteps of negBSteps, flattened in
(t, n, m) order. -/
noncomputable def negLocalBList (inp : LEInput) (T k : ℕ) : List ℝ :=
  (List.range (T - (k + 1))).flatMap (fun idx =>
    (negBSteps T k idx).flatMap (fun t =>
      (List.range inp.N).flatMap (fun n =>
        (List.range inp.N).map (fun m =>
          dotD inp.D (zCpcLocal inp k (k + 1 + idx) n) (inp.Zenc t m)))))

/-- Global negatives at anchor k, model.py line 254: the (idx, t)
entries of z_cpc_global_future @ Z_enc.mean(1).T kept by
not_same_k_mask. -/
noncomputable def negGlobalList (inp : LEInput) (T k : ℕ) : List ℝ :=
  (List.range (T - (k + 1))).flatMap (fun idx =>
    (negBSteps T k idx).map (fun t =>
      dotD inp.D (zCpcGlobal inp k (k + 1 + idx)) (meanNode inp.N (inp.Zenc t))))

/-- The infoNCE term of anchor step k, model.py lines 256 to 267: one
binary cross entropy with logits over the pooled positive scores (local
then global) and pooled negative scores (type a local, type b local,
global), with pos_weight the negative to positive count ratio. -/
noncomputable def infoTermVal (inp : LEInput) (T k : ℕ) : ℝ :=
  bceWithLogits (posLocalList inp T k ++ posGlobalList inp T k)
    (negLocalAList inp T k ++ negLocalBList inp T k ++ negGlobalList inp T k)

/-- One iteration of the compute_losses loop at step k, model.py lines
205 to 268: the reconstruction term is always added; when k < T-1 the
infoNCE and prediction terms are added as well.  The accumulator holds
(reconstruction_loss, infoNCE, prediction_loss) in the order of the
return at line 269. -/
noncomputable def TENENCE.lossStep (inp : LEInput) (T : ℕ)
    (acc : Option ℝ × Option ℝ × Option ℝ) (k : ℕ) :
    Option ℝ × Option ℝ × Option ℝ :=
  let r := nadd acc.1
    (GAE.reconLossVal inp.D (inp.Zdec k) (inp.edges.getD k []) (inp.reconNegs k))
  if k + 1 < T then
    (r, nadd acc.2.1 (some (infoTermVal inp T k)),
       nadd acc.2.2
         (GAE.reconLossVal inp.D (inp.Zpred k) (inp.edges.getD (k + 1) [])
           (inp.predNegs k)))
  else (r, acc.2.1, acc.2.2)

/-- Value semantics of TENENCE.compute_losses, model.py lines 196 to
269: each of the three losses starts at tensor(0.0) (lines 199 to 201)
and the loop accumulates the per step terms. -/
noncomputable def TENENCE.computeLossesVal (inp : LEInput) :
    Option ℝ × Option ℝ × Option ℝ :=
  (List.range inp.edges.length).foldl
    (TENENCE.lossStep inp inp.edges.length) (some 0, some 0, some 0)

/-- Value semantics of the summation in TENENCE.forward, model.py line
137: loss = reconstruction_loss + infoNCE + prediction_loss over the
triple returned by compute_losses. -/
noncomputable def TENENCE.forwardSumVal (inp : LEInput) : Option ℝ :=
  nadd (nadd (TENENCE.computeLossesVal inp).1 (TENENCE.computeLossesVal inp).2.1)
    (TENENCE.computeLossesVal inp).2.2

/-- Value semantics of the static method
TENENCE.compute_global_infoNCE_loss, model.py lines 313 to 332: Z is
first averaged over the node axis, scores_all = Z_hat @ Z.T, the
diagonal gives the positives, the off diagonal entries the negatives,
pooled into one binary cross entropy with logits with pos_weight the
count ratio.  The compute_f1 argument appears in the signature at line
314 and in no other line of the body. -/
noncomputable def TENENCE.computeGlobalInfoNCE (T N D : ℕ)
    (Zhat : ℕ → ℕ → ℝ) (Z : ℕ → ℕ → ℕ → ℝ) (_computeF1 : Bool) : ℝ :=
  bceWithLogits
    ((List.range T).map (fun t => dotD D (Zhat t) (meanNode N (Z t))))
    ((offDiagPairs T).map (fun tu => dotD D (Zhat tu.1) (meanNode N (Z tu.2))))

/-- A concrete LEInput with an empty snapshot list and zero weights,
used to instantiate universally quantified statements below. -/
noncomputable def inpEmpty : LEInput where
  N := 1
  D := 1
  edges := []
  states := fun _ _ _ => 0
  Zenc := fun _ _ _ => 0
  Zdec := fun _ _ _ => 0
  Zpred := fun _ _ _ => 0
  cpcL := ⟨fun _ _ => 0, fun _ => 0, fun _ _ => 0, fun _ => 0⟩
  cpcG := ⟨fun _ _ => 0, fun _ => 0⟩
  reconNegs := fun _ => []
  predNegs := fun _ => []

/-! Helper lemmas. -/

lemma nadd_zero_left (x : Option ℝ) : nadd (some 0) x = x := by
  cases x with
  | none => rfl
  | some a => show some (0 + a) = some a; rw [zero_add]

lemma sigmoidR_nonneg (x : ℝ) : 0 ≤ sigmoidR x := by
  unfold sigmoidR
  positivity

lemma sigmoidR_le_one (x : ℝ) : sigmoidR x ≤ 1 := by
  unfold sigmoidR
  rw [div_le_one (by positivity)]
  have h := Real.exp_pos (-x)
  linarith

lemma edgesValid_fst {E : List (ℕ × ℕ)} {n : ℕ} (h : edgesValidB E n = true) :
    (E.all fun e => decide (e.1 < n)) = true := by
  simp only [edgesValidB, List.all_eq_true, Bool.and_eq_true, decide_eq_true_eq] at h ⊢
  intro e he
  exact (h e he).1

lemma indexFillS_ok {E : List (ℕ × ℕ)} {n : ℕ} (h : edgesValidB E n = true) :
    indexFillS n E = some () := by
  unfold indexFillS
  rw [if_pos (edgesValid_fst h)]

lemma mpnnS_ok (inD hidD outD N f : ℕ) (E : List (ℕ × ℕ)) (norm : Bool)
    (hf : f = inD) (hho : hidD = outD) (hN1 : N ≠ 1)
    (hE : edgesValidB E N = true) :
    MPNN.forwardS inD hidD outD (N, f) E norm = some (N, outD) := by
  subst hf
  subst hho
  simp [MPNN.forwardS, gcnConvS, batchNorm1dS, hE, hN1]

lemma ggruS_ok (N D : ℕ) (E : List (ℕ × ℕ)) (hE : edgesValidB E N = true) :
    GGRU.forwardS (2 * D) D (N, 2 * D) E (N, D) = some (N, D) := by
  simp [GGRU.forwardS, gcnConvS, addS, mulS, hE]

lemma stepS_ok (cfg : Cfg) (N0 : ℕ) (s : SnapS) (norm : Bool)
    (hho : cfg.hidden = cfg.output) (hf : s.f = cfg.input) (hn : s.n = N0)
    (hN1 : N0 ≠ 1) (hD1 : cfg.output ≠ 1)
    (hE : edgesValidB s.E N0 = true) :
    TENENCE.stepS cfg N0 (N0, cfg.output) s norm = some (N0, cfg.output) := by
  subst hn
  have hm : MPNN.forwardS cfg.input cfg.hidden cfg.output (s.n, s.f) s.E norm
      = some (s.n, cfg.output) :=
    mpnnS_ok cfg.input cfg.hidden cfg.output s.n s.f s.E norm hf hho hN1 hE
  have hif : indexFillS s.n s.E = some () := indexFillS_ok hE
  have hcat : catTimeEncS s.n cfg.output (s.n, cfg.output)
      = some (s.n, cfg.output + cfg.output) := by
    simp [catTimeEncS, TimeEncoder.squeezedDims, hN1, hD1]
  have hg : GGRU.forwardS (2 * cfg.output) cfg.output (s.n, cfg.output + cfg.output)
      s.E (s.n, cfg.output) = some (s.n, cfg.output) := by
    have h2 := ggruS_ok s.n cfg.output s.E hE
    rw [two_mul cfg.output] at h2
    rw [two_mul cfg.output]
    exact h2
  simp [TENENCE.stepS, hm, hif, hcat, hg, linearS]

lemma encSeqGo_ok (cfg : Cfg) (N0 : ℕ) (norm : Bool) (hho : cfg.hidden = cfg.output)
    (hN1 : N0 ≠ 1) (hD1 : cfg.output ≠ 1) :
    ∀ l : List SnapS,
      (∀ s ∈ l, s.f = cfg.input ∧ s.n = N0 ∧ edgesValidB s.E N0 = true) →
      TENENCE.encSeqGo cfg N0 norm (N0, cfg.output) l = some (N0, cfg.output) := by
  intro l
  induction l with
  | nil => intro _; rfl
  | cons s rest ih =>
    intro h
    have hs := h s (List.mem_cons_self s rest)
    have hst := stepS_ok cfg N0 s norm hho hs.1 hs.2.1 hN1 hD1 hs.2.2
    rw [TENENCE.encSeqGo, hst]
    exact ih (fun t ht => h t (List.mem_cons_of_mem s ht))

lemma encodeSequenceS_ok (cfg : Cfg) (seq : List SnapS) (norm : Bool)
    (hho : cfg.hidden = cfg.output) (hne : seq ≠ []) (hN1 : headN seq ≠ 1)
    (hD1 : cfg.output ≠ 1) (hwf : WFSeq cfg seq) :
    TENENCE.encodeSequenceS cfg seq norm = some (headN seq, cfg.output) := by
  cases seq with
  | nil => exact absurd rfl hne
  | cons s0 rest =>
    show TENENCE.encSeqGo cfg s0.n norm (s0.n, cfg.output) (s0 :: rest)
        = some (s0.n, cfg.output)
    exact encSeqGo_ok cfg s0.n norm hho hN1 hD1 (s0 :: rest) (fun s hs => hwf s hs)

lemma lastSeenAt_le (E : ℕ → List (ℕ × ℕ)) (v : ℕ) : ∀ k, lastSeenAt E k v ≤ k := by
  intro k
  induction k with
  | zero => exact Nat.le_refl 0
  | succ k ih =>
    by_cases h : v ∈ srcNodes (E k)
    · simp [lastSeenAt, h]
    · simp only [lastSeenAt, if_neg h]
      exact Nat.le_trans ih (Nat.le_succ k)

lemma lastSeenAt_zero_of_inactive (E : ℕ → List (ℕ × ℕ)) (v : ℕ) :
    ∀ T, (∀ j, j < T → v ∉ srcNodes (E j)) → lastSeenAt E T v = 0 := by
  intro T
  induction T with
  | zero => intro _; rfl
  | succ T ih =>
    intro h
    have hT : v ∉ srcNodes (E T) := h T (Nat.lt_succ_self T)
    simp only [lastSeenAt, if_neg hT]
    exact ih (fun j hj => h j (Nat.lt_succ_of_lt hj))

/-! Claim theorems. -/

/-- C1, counterexample: the claim that TENENCE.forward completes and
returns the loss for every non-empty well formed snapshot sequence
fails on the code on two distinct error paths.  First, with
configuration (input_dim=1, hidden_dim=1, output_dim=2), any snapshot
fails inside the structural encoder, because bn3 is constructed over
hidden_dim = 1 features but receives the output_dim = 2 wide output of
mp3 (model.py lines 48, 52, 65, 66).  Second, even with hidden_dim =
output_dim, configuration (1, 1, 1) on a two node snapshot fails at
line 169: the .squeeze() of TimeEncoder.forward (line 34) collapses
the recency encoding to one dimension when output_dim = 1, so the
torch.cat with the 2-D z_enc_k raises.  In both cases no scalar is
returned. -/
theorem TENENCE.forward_fails_cex :
    TENENCE.forwardS ⟨1, 1, 2⟩ [⟨2, 1, []⟩] false = none ∧
    TENENCE.forwardS ⟨1, 1, 1⟩ [⟨2, 1, []⟩] false = none := by decide

/-- C1, amended claim: for every configuration with hidden_dim =
output_dim and output_dim different from 1, and every non-empty well
formed snapshot sequence (constant node count different from 1,
feature width equal to input_dim, valid edge indices), TENENCE.forward
completes, and the returned scalar is the sum reconstruction_loss +
infoNCE + prediction_loss of the triple computed by compute_losses
over the encode_sequence outputs (whenever the three parts are
numbers, their NaN-free case).  The excluded N = 1 and output_dim = 1
cases fail at line 169 through the squeeze of the recency encoding,
and in training mode already inside batch normalization for N = 1. -/
theorem TENENCE.forward_returns_loss_sum (cfg : Cfg) (seq : List SnapS) (norm : Bool)
    (hho : cfg.hidden = cfg.output) (hne : seq ≠ []) (hN1 : headN seq ≠ 1)
    (hD1 : cfg.output ≠ 1) (hwf : WFSeq cfg seq) :
    (∃ u, TENENCE.forwardS cfg seq norm = some u) ∧
    (∀ (inp : LEInput) (r i p : ℝ),
        TENENCE.computeLossesVal inp = (some r, some i, some p) →
        TENENCE.forwardSumVal inp = some (r + i + p)) := by
  constructor
  · refine ⟨(), ?_⟩
    unfold TENENCE.forwardS
    rw [encodeSequenceS_ok cfg seq norm hho hne hN1 hD1 hwf]
    rfl
  · intro inp r i p h
    unfold TENENCE.forwardSumVal
    rw [h]
    rfl

/-- C1, witness: concrete instance of the amended claim at
configuration (1, 2, 2) with one snapshot of two nodes, one feature and
one edge, and of the sum identity at a concrete loss input. -/
theorem TENENCE.forward_returns_loss_sum_witness :
    (∃ u, TENENCE.forwardS ⟨1, 2, 2⟩ [⟨2, 1, [(0, 1)]⟩] false = some u) ∧
    TENENCE.forwardSumVal inpEmpty = some (0 + 0 + 0) := by
  have h := TENENCE.forward_returns_loss_sum ⟨1, 2, 2⟩ [⟨2, 1, [(0, 1)]⟩] false rfl
    (by decide) (by decide) (by decide) (by decide)
  exact ⟨h.1, h.2 inpEmpty 0 0 0 rfl⟩

/-- C2, counterexample: decode_next does not return an N by N
probability matrix for every non-empty snapshot sequence: with
hidden_dim = 1 different from output_dim = 2 the encoder pass it runs
first fails at bn3, and with configuration (1, 1, 1) on a two node
snapshot the pass fails at line 169, where the squeezed recency
encoding (model.py line 34) can no longer be concatenated with the 2-D
z_enc_k; in both cases nothing is returned. -/
theorem TENENCE.decode_next_fails_cex :
    TENENCE.decodeNextS ⟨1, 1, 2⟩ [⟨2, 1, []⟩] false = none ∧
    TENENCE.decodeNextS ⟨1, 1, 1⟩ [⟨2, 1, []⟩] false = none := by decide

/-- C2, amended claim: for every configuration with hidden_dim =
output_dim and output_dim different from 1, and every non-empty well
formed snapshot sequence with node count different from 1, decode_next
runs the sequence driver (encode_sequence, resolving the undefined
self.encode of line 191 per the spec) and returns an N by N matrix, N
the shared node count; and every entry that the full pairwise
dot-product-plus-sigmoid decoder produces on any final
PredictedEmbedding lies in the interval [0, 1].  The excluded N = 1
and output_dim = 1 cases fail in the driver at line 169 through the
squeeze of the recency encoding. -/
theorem TENENCE.decode_next_shape_and_range (cfg : Cfg) (seq : List SnapS) (norm : Bool)
    (hho : cfg.hidden = cfg.output) (hne : seq ≠ []) (hN1 : headN seq ≠ 1)
    (hD1 : cfg.output ≠ 1) (hwf : WFSeq cfg seq) :
    TENENCE.decodeNextS cfg seq norm = some (headN seq, headN seq) ∧
    ∀ (D : ℕ) (z : ℕ → ℕ → ℝ) (i j : ℕ),
      0 ≤ GAE.forwardAllVal D z i j ∧ GAE.forwardAllVal D z i j ≤ 1 := by
  constructor
  · unfold TENENCE.decodeNextS
    rw [encodeSequenceS_ok cfg seq norm hho hne hN1 hD1 hwf]
    rfl
  · intro D z i j
    unfold GAE.forwardAllVal
    exact ⟨sigmoidR_nonneg _, sigmoidR_le_one _⟩

/-- C2, witness: concrete instance of the amended claim at
configuration (1, 2, 2), one snapshot with two nodes, and the zero
embedding. -/
theorem TENENCE.decode_next_shape_and_range_witness :
    TENENCE.decodeNextS ⟨1, 2, 2⟩ [⟨2, 1, [(0, 1)]⟩] false = some (2, 2) ∧
    (0 ≤ GAE.forwardAllVal 1 (fun _ _ => 0) 0 0 ∧
      GAE.forwardAllVal 1 (fun _ _ => 0) 0 0 ≤ 1) := by
  have h := TENENCE.decode_next_shape_and_range ⟨1, 2, 2⟩ [⟨2, 1, [(0, 1)]⟩] false rfl
    (by decide) (by decide) (by decide) (by decide)
  exact ⟨h.1, h.2 1 (fun _ _ => 0) 0 0⟩

/-- C3: the claim fails and the code is the slip: MPNN constructed with
input_dim = 1, hidden_dim = 2, output_dim = 3 fails on any snapshot
(here four nodes, one feature, no edges), because bn3 is constructed
with num_features = hidden_dim (model.py line 52) yet is applied to the
output_dim wide output of mp3 (lines 65 to 66), so no output_dim wide
embedding matrix is returned when hidden_dim and output_dim differ. -/
theorem MPNN.bn3_width_mismatch :
    MPNN.forwardS 1 2 3 (4, 1) [] false = none := by decide

/-- C4, counterexample: at T = 2 snapshots, anchor step k = 0 and
forecast target index idx = 0 (target step 1), the timesteps whose node
embeddings serve as type (b) local negatives are not all strictly later
than the anchor: negBSteps 2 0 0 selects timestep 0 = k. -/
theorem TENENCE.negB_includes_past_steps :
    ¬ ∀ t ∈ negBSteps 2 0 0, 0 < t := by decide

/-- C4, amended claim: at anchor step k, the type (b) negative local
scores compare the forecast aimed at target step k+1+idx against the
node embeddings of every timestep t of the sequence with t different
from the target, including timesteps at or before the anchor k (the
mask of model.py line 245 removes one column of ~eye(T), not the past
columns). -/
theorem TENENCE.negB_is_all_other_steps (T k idx t : ℕ) :
    t ∈ negBSteps T k idx ↔ t < T ∧ t ≠ k + 1 + idx := by
  simp [negBSteps, List.mem_filter, List.mem_range]

/-- C5: evaluation of the code at the failing input: for a snapshot
with an empty edge list, GAE.recon_loss takes the mean of an empty
vector of positive terms (and negative_sampling returns zero negative
edges), so the step contributes the NaN value none rather than the zero
the claim and spec section 7 require. -/
theorem GAE.recon_loss_no_edges_nan :
    GAE.reconLossVal 1 (fun _ _ => 0) [] [] = none := rfl

/-- C6: for every length one snapshot sequence, compute_losses returns
prediction loss exactly 0 and infoNCE exactly 0 (their tensor(0.0)
initializations, the k < T-1 branch never being taken), and the
reconstruction loss it returns is exactly the direct single step
reconstruction loss computation on that snapshot; the computation is
total. -/
theorem TENENCE.computeLosses_single_step (N D : ℕ)
    (st ze zd zp : ℕ → ℕ → ℕ → ℝ) (cl : MLP2) (cg : Lin1)
    (e : List (ℕ × ℕ)) (rn pn : ℕ → List (ℕ × ℕ)) :
    TENENCE.computeLossesVal ⟨N, D, [e], st, ze, zd, zp, cl, cg, rn, pn⟩ =
      (GAE.reconLossVal D (zd 0) e (rn 0), some 0, some 0) := by
  have h1 : TENENCE.computeLossesVal ⟨N, D, [e], st, ze, zd, zp, cl, cg, rn, pn⟩
      = (nadd (some 0) (GAE.reconLossVal D (zd 0) e (rn 0)), some 0, some 0) := rfl
  rw [h1, nadd_zero_left]

/-- C7: throughout encode_sequence, the last_seen value of every node v
is non-decreasing from each step to the next, is set to k+1 at every
step k where v is a source endpoint of an edge, and stays 0 through a
whole sequence of T steps in which v is never a source endpoint. -/
theorem TENENCE.lastSeen_invariants (E : ℕ → List (ℕ × ℕ)) (v T k : ℕ) :
    lastSeenAt E k v ≤ lastSeenAt E (k + 1) v ∧
    (v ∈ srcNodes (E k) → lastSeenAt E (k + 1) v = k + 1) ∧
    ((∀ j, j < T → v ∉ srcNodes (E j)) → lastSeenAt E T v = 0) := by
  refine ⟨?_, ?_, lastSeenAt_zero_of_inactive E v T⟩
  · by_cases h : v ∈ srcNodes (E k)
    · simp only [lastSeenAt, if_pos h]
      exact Nat.le_succ_of_le (lastSeenAt_le E v k)
    · simp only [lastSeenAt, if_neg h]
      exact Nat.le_refl _
  · intro h
    simp only [lastSeenAt, if_pos h]

/-- C7, witness: with every snapshot having the single edge (0, 1),
node 2 is monotone between steps 1 and 2 and stays at 0 after three
steps, while source node 0 is stamped 2 at step index 1. -/
theorem TENENCE.lastSeen_invariants_witness :
    lastSeenAt (fun _ => [(0, 1)]) 1 2 ≤ lastSeenAt (fun _ => [(0, 1)]) 2 2 ∧
    lastSeenAt (fun _ => [(0, 1)]) 2 0 = 2 ∧
    lastSeenAt (fun _ => [(0, 1)]) 3 2 = 0 := by
  have h := TENENCE.lastSeen_invariants (fun _ => [(0, 1)]) 2 3 1
  have h0 := TENENCE.lastSeen_invariants (fun _ => [(0, 1)]) 0 3 1
  exact ⟨h.1, h0.2.1 (by decide), h.2.2 (by decide)⟩

/-- C8: for every N ≥ 1, D ≥ 1, every structural input of shape
(N, 2D), every previous state of shape (N, D) and every edge list over
the N nodes (the empty list included), GGRU.forward is defined and
returns a state of shape (N, D). -/
theorem GGRU.forward_shape (N D : ℕ) (E : List (ℕ × ℕ))
    (hN : 1 ≤ N) (hD : 1 ≤ D) (hE : edgesValidB E N = true) :
    GGRU.forwardS (2 * D) D (N, 2 * D) E (N, D) = some (N, D) :=
  ggruS_ok N D E hE

/-- C8, witness: concrete instance with N = 2, D = 3 and the empty edge
list. -/
theorem GGRU.forward_shape_witness :
    1 ≤ 2 ∧ 1 ≤ 3 ∧ edgesValidB ([] : List (ℕ × ℕ)) 2 = true ∧
    GGRU.forwardS (2 * 3) 3 (2, 2 * 3) [] (2, 3) = some (2, 3) :=
  ⟨by decide, by decide, by decide,
    GGRU.forward_shape 2 3 [] (by decide) (by decide) (by decide)⟩

/-- C9: for every dimension D ≥ 1 and every component index i < D, the
TimeEncoder of dimension D encodes t = 0 to the value 1 in component i:
the frozen weights are multiplied by zero, the bias is zero, and
cos 0 = 1, independent of D. -/
theorem TimeEncoder.encode_zero_all_ones (D i : ℕ) (hD : 1 ≤ D) (hi : i < D) :
    TimeEncoder.encodeAt D 0 i = 1 := by
  simp [TimeEncoder.encodeAt, TimeEncoder.biasAt]

/-- C9, witness: concrete instance at D = 2, i = 1. -/
theorem TimeEncoder.encode_zero_all_ones_witness :
    1 ≤ 2 ∧ 1 < 2 ∧ TimeEncoder.encodeAt 2 0 1 = 1 :=
  ⟨by decide, by decide, TimeEncoder.encode_zero_all_ones 2 1 (by decide) (by decide)⟩

/-- C10: the value of compute_global_infoNCE_loss is independent of the
compute_f1 argument: the parameter of model.py line 314 occurs in no
line of the body, so the runs with true and with false coincide for
every Z_hat and Z. -/
theorem TENENCE.global_infoNCE_ignores_compute_f1 (T N D : ℕ)
    (Zhat : ℕ → ℕ → ℝ) (Z : ℕ → ℕ → ℕ → ℝ) :
    TENENCE.computeGlobalInfoNCE T N D Zhat Z true =
      TENENCE.computeGlobalInfoNCE T N D Zhat Z false := rfl
